import Mathlib

/-!
Shallow embedding of the wgpu rendering backend for the nuklear GUI toolkit
(`src/lib.rs`).  Floating point coordinates (`f32`) are modelled as exact
rationals; machine integers (`u32`, `i32`, `usize`) are modelled as `Nat`/`Int`
with explicit wrapping or saturation where a cast in the source can overflow.
GPU objects (textures, samplers, bind groups, pipelines, shader modules) are
opaque handles: a bind group is modelled as an abstract token `ℕ`, and the
render pass is modelled by the trace of calls issued against it.
-/

/-- `wgpu::Color` (four `f64` channels, modelled as rationals). -/
structure Color where
  r : ℚ
  g : ℚ
  b : ℚ
  a : ℚ
  deriving DecidableEq

/-- The `Vertex` struct of the backend: `pos: [f32; 2]`, `tex: [f32; 2]`,
`col: [u8; 4]`.  Byte size in the source is `size_of::<Vertex>() = 20`. -/
structure Vertex where
  pos : ℚ × ℚ
  tex : ℚ × ℚ
  col : ℕ × ℕ × ℕ × ℕ
  deriving DecidableEq

/-- `size_of::<Vertex>()`: two `[f32; 2]` fields (8 bytes each) plus one
`[u8; 4]` field. -/
def vertex_size : ℕ := 20

/-- `WgpuTexture`: the texture and sampler are opaque GPU objects; what the
draw loop observes is the bind group, modelled as an abstract token. -/
structure WgpuTexture where
  bind_group : ℕ
  deriving DecidableEq

/-- `nuklear::Vec2` (the device scale factor). -/
structure Vec2 where
  x : ℚ
  y : ℚ
  deriving DecidableEq

/-- `nuklear::Rect`, the clip rectangle of a draw command. -/
structure Rect where
  x : ℚ
  y : ℚ
  w : ℚ
  h : ℚ
  deriving DecidableEq

/-- One command yielded by `ctx.draw_command_iterator(&self.cmd)`:
`elem_count()` is a `u32` index count, `texture()` is a `nuklear::Handle`
whose `id()` accessor returns `Option<i32>` (`none` when the handle carries a
pointer instead of an id), `clip_rect()` is the clip rectangle. -/
structure DrawCommand where
  elem_count : ℕ
  texture : Option ℤ
  clip_rect : Rect
  deriving DecidableEq

/-- The state of `Drawer` that the embedded operations observe: the texture
vector `tex`, the configured staging capacities `vsz`/`esz`, and the public
clear color `col`.  The GPU-only fields (`cmd`, `pso`, `tla`, `ubf`, `ubg`,
`vle`) are opaque handles created at construction and never inspected by the
logic modelled here. -/
structure Drawer where
  tex : List WgpuTexture
  vsz : ℕ
  esz : ℕ
  col : Option Color
  deriving DecidableEq

/-- `Drawer::new`: takes a (non-optional) `col: Color` and stores
`col: Some(col)`; the texture vector starts empty
(`Vec::with_capacity(texture_count + 1)`), and the staging capacities are
recorded. -/
def Drawer.new (col : Color) (texture_count vbo_size ebo_size : ℕ) : Drawer :=
  { tex := [], vsz := vbo_size, esz := ebo_size, col := some col }

/-- Rust `as i32` on a nonnegative integer (`self.tex.len() as i32`):
two's-complement wrap into `[-2^31, 2^31)`. -/
def wrap_i32 (n : ℤ) : ℤ := (n + 2 ^ 31) % 2 ^ 32 - 2 ^ 31

/-- `Drawer::add_texture`: pushes the new texture and returns
`Handle::from_id(self.tex.len() as i32)` (the length after the push). -/
def Drawer.add_texture (d : Drawer) (t : WgpuTexture) : Drawer × ℤ :=
  ({ d with tex := d.tex ++ [t] }, wrap_i32 ((d.tex.length : ℤ) + 1))

/-- Iterated `add_texture` calls, returning the final drawer and the list of
handles in call order. -/
def add_textures (d : Drawer) (ts : List WgpuTexture) : Drawer × List ℤ :=
  match ts with
  | [] => (d, [])
  | t :: rest =>
    let p := d.add_texture t
    let q := add_textures p.1 rest
    (q.1, p.2 :: q.2)

/-- The handles produced by `n` successive `add_texture` calls on a drawer
whose texture vector currently has length `len`: each call returns the
wrapped length after its push. -/
def handle_list : ℕ → ℕ → List ℤ
  | _, 0 => []
  | len, m + 1 => wrap_i32 ((len : ℤ) + 1) :: handle_list (len + 1) m

/-- `Drawer::find_res`:
`if id > 0 && id as usize <= self.tex.len() { self.tex.get((id - 1) as usize) }
else { None }`. -/
def find_res (tex : List WgpuTexture) (id : ℤ) : Option WgpuTexture :=
  if 0 < id ∧ id.toNat ≤ tex.length then tex.get? (id.toNat - 1) else none

/-- Rust `as u32` cast from `f32`: truncation toward zero, saturating at `0`
and `2^32 - 1`.  On a nonnegative rational, `q.num.toNat / q.den` is the
integer part of `q`. -/
def f32_as_u32 (q : ℚ) : ℕ :=
  if q < 0 then 0 else min (q.num.toNat / q.den) (2 ^ 32 - 1)

/-- The orthographic matrix built at the top of `Drawer::draw` (row-major
`[[f32; 4]; 4]`, idealised over ℚ). -/
def ortho (width height : ℚ) : List (List ℚ) :=
  [[2 / width, 0, 0, 0],
   [0, -2 / height, 0, 0],
   [0, 0, -1, 0],
   [-1, 1, 0, 1]]

/-- Entry `M[i][j]` of the orthographic matrix. -/
def ortho_entry (width height : ℚ) (i j : ℕ) : ℚ :=
  ((ortho width height).getD i []).getD j 0

/-- `wgpu::LoadOp` of the render pass color attachment. -/
inductive LoadOp where
  | Clear : LoadOp
  | Load : LoadOp
  deriving DecidableEq

/-- The `load_op` chosen in `Drawer::draw`:
`match self.col { Some(_) => LoadOp::Clear, _ => LoadOp::Load }`. -/
def render_pass_load_op (col : Option Color) : LoadOp :=
  match col with
  | some _ => LoadOp.Clear
  | none => LoadOp.Load

/-- The `clear_color` passed in `Drawer::draw`:
`self.col.unwrap_or(Color { r: 1.0, g: 2.0, b: 3.0, a: 1.0 })`. -/
def render_pass_clear_color (col : Option Color) : Color :=
  col.getD { r := 1, g := 2, b := 3, a := 1 }

/-- The number of `Vertex`-sized slots the vertical-flip loop visits:
`vbf.data.len() / size_of::<Vertex>()`, where the mapped staging allocation
`vbf.data` has the configured byte capacity `vbo_size`. -/
def flip_slot_count (vbo_size : ℕ) : ℕ := vbo_size / vertex_size

/-- One iteration of the vertical-flip loop:
`v.pos[1] = height as f32 - v.pos[1]`. -/
def flip_y (height : ℚ) (v : Vertex) : Vertex :=
  { v with pos := (v.pos.1, height - v.pos.2) }

/-- The whole vertical-flip loop: `for v in vbf.iter_mut() { ... }` over the
reinterpreted vertex slice. -/
def flip_pass (height : ℚ) (buf : List Vertex) : List Vertex :=
  buf.map (flip_y height)

/-- A default vertex used as the out-of-range fallback of `List.getD`. -/
def dummy_vertex : Vertex :=
  { pos := (0, 0), tex := (0, 0), col := (0, 0, 0, 0) }

/-- One indexed draw call issued inside the render pass: the texture bind
group set at slot 1, the scissor rectangle, and the index range
`start..end` passed to `draw_indexed`. -/
structure DrawCall where
  bind_group : ℕ
  scissor : ℕ × ℕ × ℕ × ℕ
  ix_start : ℕ
  ix_end : ℕ
  deriving DecidableEq

/-- The draw-span walk at the bottom of `Drawer::draw`: iterate the commands
with a running offset `start`; skip commands with `elem_count() < 1`;
`unwrap` the texture id and the `find_res` lookup (a `none` models the
panic); emit one `DrawCall` with the scaled, truncated scissor rectangle and
the index range `start..start + elem_count`; continue with `start = end`. -/
def draw_loop (tex : List WgpuTexture) (scale : Vec2) :
    List DrawCommand → ℕ → Option (List DrawCall)
  | [], _ => some []
  | cmd :: rest, start =>
    if cmd.elem_count < 1 then
      draw_loop tex scale rest start
    else
      match cmd.texture with
      | none => none
      | some id =>
        match find_res tex id with
        | none => none
        | some res =>
          Option.map
            (fun calls =>
              { bind_group := res.bind_group
                scissor :=
                  (f32_as_u32 (cmd.clip_rect.x * scale.x),
                   f32_as_u32 (cmd.clip_rect.y * scale.y),
                   f32_as_u32 (cmd.clip_rect.w * scale.x),
                   f32_as_u32 (cmd.clip_rect.h * scale.y))
                ix_start := start
                ix_end := start + cmd.elem_count } :: calls)
            (draw_loop tex scale rest (start + cmd.elem_count))

/-- The total index count consumed: the sum of all commands' element
counts. -/
def total_elems (cmds : List DrawCommand) : ℕ :=
  (cmds.map DrawCommand.elem_count).sum

/-- The spans chain contiguously from offset `s`: each call starts exactly
where the previous one ended. -/
def chain_from : ℕ → List DrawCall → Bool
  | _, [] => true
  | s, k :: rest => decide (k.ix_start = s) && chain_from k.ix_end rest

/-- The end offset of the last span, starting from `s` (i.e. `s` itself when
no call was issued). -/
def last_end : ℕ → List DrawCall → ℕ
  | s, [] => s
  | _, k :: rest => last_end k.ix_end rest

/-- The bind group a command's texture handle resolves to:
`find_res(cmd.texture().id().unwrap()).unwrap().bind_group`, with `none`
modelling either `unwrap` panic. -/
def resolved_bind (tex : List WgpuTexture) (c : DrawCommand) : Option ℕ :=
  match c.texture with
  | none => none
  | some id => Option.map WgpuTexture.bind_group (find_res tex id)

/-! ### Helper lemmas -/

theorem flip_pass_getD (height : ℚ) (buf : List Vertex) (i : ℕ)
    (h : i < buf.length) :
    (flip_pass height buf).getD i dummy_vertex
      = flip_y height (buf.getD i dummy_vertex) := by
  induction buf generalizing i with
  | nil => simp at h
  | cons v rest ih =>
    cases i with
    | zero => simp [flip_pass]
    | succ n =>
      have hn : n < rest.length := by simpa using h
      simpa [flip_pass] using ih n hn

theorem flip_pass_length (height : ℚ) (buf : List Vertex) :
    (flip_pass height buf).length = buf.length := by
  simp [flip_pass]

theorem draw_loop_chain (tex : List WgpuTexture) (scale : Vec2) :
    ∀ (cmds : List DrawCommand) (s : ℕ) (calls : List DrawCall),
      draw_loop tex scale cmds s = some calls →
      chain_from s calls = true ∧ last_end s calls = s + total_elems cmds := by
  intro cmds
  induction cmds with
  | nil =>
    intro s calls h
    rw [draw_loop] at h
    obtain rfl : [] = calls := Option.some.inj h
    simp [chain_from, last_end, total_elems]
  | cons c rest ih =>
    intro s calls h
    rw [draw_loop] at h
    by_cases hc : c.elem_count < 1
    · rw [if_pos hc] at h
      have h0 : c.elem_count = 0 := by omega
      obtain ⟨h1, h2⟩ := ih s calls h
      exact ⟨h1, by simp [h2, total_elems, h0]⟩
    · rw [if_neg hc] at h
      cases htex : c.texture with
      | none =>
        simp only [htex] at h
        exact Option.noConfusion h
      | some id =>
        simp only [htex] at h
        cases hres : find_res tex id with
        | none =>
          simp only [hres] at h
          exact Option.noConfusion h
        | some res =>
          simp only [hres] at h
          obtain ⟨calls', hrest, hcons⟩ := Option.map_eq_some'.mp h
          obtain ⟨h1, h2⟩ := ih (s + c.elem_count) calls' hrest
          subst hcons
          refine ⟨by simp [chain_from, h1], ?_⟩
          simp only [last_end, h2, total_elems, List.map_cons, List.sum_cons]
          omega

theorem draw_loop_trace (tex : List WgpuTexture) (scale : Vec2) :
    ∀ (cmds : List DrawCommand) (s : ℕ) (calls : List DrawCall),
      draw_loop tex scale cmds s = some calls →
      (calls.map fun k => (some k.bind_group, k.ix_end - k.ix_start, k.scissor))
        = ((cmds.filter fun c => decide (0 < c.elem_count)).map
            fun c => (resolved_bind tex c, c.elem_count,
              (f32_as_u32 (c.clip_rect.x * scale.x),
               f32_as_u32 (c.clip_rect.y * scale.y),
               f32_as_u32 (c.clip_rect.w * scale.x),
               f32_as_u32 (c.clip_rect.h * scale.y)))) := by
  intro cmds
  induction cmds with
  | nil =>
    intro s calls h
    rw [draw_loop] at h
    obtain rfl : [] = calls := Option.some.inj h
    simp
  | cons c rest ih =>
    intro s calls h
    rw [draw_loop] at h
    by_cases hc : c.elem_count < 1
    · rw [if_pos hc] at h
      have h0 : ¬ (0 < c.elem_count) := by omega
      simpa [List.filter, h0] using ih s calls h
    · rw [if_neg hc] at h
      cases htex : c.texture with
      | none =>
        simp only [htex] at h
        exact Option.noConfusion h
      | some id =>
        simp only [htex] at h
        cases hres : find_res tex id with
        | none =>
          simp only [hres] at h
          exact Option.noConfusion h
        | some res =>
          simp only [hres] at h
          obtain ⟨calls', hrest, hcons⟩ := Option.map_eq_some'.mp h
          subst hcons
          have hpos : 0 < c.elem_count := by omega
          have hfilter : List.filter (fun c => decide (0 < c.elem_count)) (c :: rest)
              = c :: List.filter (fun c => decide (0 < c.elem_count)) rest := by
            simp [List.filter, hpos]
          rw [hfilter]
          simp only [List.map_cons, List.cons.injEq]
          constructor
          · simp [resolved_bind, htex, hres]
          · exact ih (s + c.elem_count) calls' hrest

theorem total_filter (cmds : List DrawCommand) :
    ((cmds.filter fun c => decide (0 < c.elem_count)).map
        DrawCommand.elem_count).sum = total_elems cmds := by
  induction cmds with
  | nil => simp [total_elems]
  | cons c rest ih =>
    by_cases hc : 0 < c.elem_count
    · simp [List.filter, hc, total_elems] at ih ⊢
      omega
    · have h0 : c.elem_count = 0 := by omega
      simp [List.filter, hc, total_elems, h0] at ih ⊢
      omega

theorem wrap_i32_eq_self (n : ℤ) (h1 : -2 ^ 31 ≤ n) (h2 : n < 2 ^ 31) :
    wrap_i32 n = n := by
  unfold wrap_i32
  omega

theorem add_textures_tex (ts : List WgpuTexture) :
    ∀ d : Drawer, (add_textures d ts).1.tex = d.tex ++ ts := by
  induction ts with
  | nil => intro d; simp [add_textures]
  | cons t rest ih =>
    intro d
    simp [add_textures, Drawer.add_texture, ih]

theorem add_textures_handles (ts : List WgpuTexture) :
    ∀ d : Drawer, (add_textures d ts).2
      = handle_list d.tex.length ts.length := by
  induction ts with
  | nil => intro d; simp [add_textures, handle_list]
  | cons t rest ih =>
    intro d
    simp [add_textures, Drawer.add_texture, ih, handle_list]

theorem handle_list_eq (n : ℕ) :
    ∀ len : ℕ, ((len : ℤ) + (n : ℤ)) ≤ 2147483647 →
      handle_list len n
        = (List.range n).map (fun k : ℕ => ((len : ℤ) + (k : ℤ) + 1)) := by
  induction n with
  | zero => intro len _; simp [handle_list]
  | succ m ih =>
    intro len h
    have h2 : ((len : ℤ) + (m : ℤ) + 1) ≤ 2147483647 := by push_cast at h; omega
    rw [handle_list, wrap_i32_eq_self ((len : ℤ) + 1) (by omega) (by omega),
      ih (len + 1) (by push_cast; omega), List.range_succ_eq_map, List.map_cons,
      List.map_map, List.cons.injEq]
    constructor
    · norm_num
    · apply List.map_congr_left
      intro k _
      simp only [Function.comp_apply]
      push_cast
      ring

theorem find_res_in_range (tex : List WgpuTexture) (k : ℕ)
    (h1 : 1 ≤ k) (h2 : k ≤ tex.length) :
    find_res tex (k : ℤ) = tex.get? (k - 1) := by
  unfold find_res
  rw [if_pos (by omega)]
  have hk : (k : ℤ).toNat - 1 = k - 1 := by omega
  rw [hk]

theorem find_res_nonpos (tex : List WgpuTexture) (id : ℤ) (h : id ≤ 0) :
    find_res tex id = none := by
  unfold find_res
  rw [if_neg]
  rintro ⟨h1, _⟩
  omega

theorem find_res_out_of_range (tex : List WgpuTexture) (id : ℤ)
    (h : (tex.length : ℤ) < id) :
    find_res tex id = none := by
  unfold find_res
  rw [if_neg]
  rintro ⟨h1, h2⟩
  omega

/-! ### Claim theorems -/

/-- C1: when the draw-span walk of Drawer.draw succeeds on a command
sequence, the emitted spans chain contiguously from offset 0, the end of the
last span is the total index count consumed, each drawn command receives a
span of exactly its element count, and the per-span element counts sum to the
total index count. -/
theorem draw_spans_partition (tex : List WgpuTexture) (scale : Vec2)
    (cmds : List DrawCommand) (calls : List DrawCall)
    (h : draw_loop tex scale cmds 0 = some calls) :
    chain_from 0 calls = true
    ∧ last_end 0 calls = total_elems cmds
    ∧ (calls.map fun k => k.ix_end - k.ix_start)
        = ((cmds.filter fun c => decide (0 < c.elem_count)).map
            DrawCommand.elem_count)
    ∧ (calls.map fun k => k.ix_end - k.ix_start).sum = total_elems cmds := by
  obtain ⟨h1, h2⟩ := draw_loop_chain tex scale cmds 0 calls h
  have h3 := draw_loop_trace tex scale cmds 0 calls h
  have hmap : (calls.map fun k => k.ix_end - k.ix_start)
      = ((cmds.filter fun c => decide (0 < c.elem_count)).map
          DrawCommand.elem_count) := by
    have h4 := congrArg
      (List.map (fun p : Option ℕ × ℕ × (ℕ × ℕ × ℕ × ℕ) => p.2.1)) h3
    simpa [List.map_map, Function.comp] using h4
  refine ⟨h1, by simpa using h2, hmap, ?_⟩
  rw [hmap, total_filter]

/-- C3: a command whose element count is zero produces no draw call and does
not advance the running index offset: the walk on it behaves exactly as the
walk on the remaining commands from the same offset. -/
theorem zero_count_no_advance (tex : List WgpuTexture) (scale : Vec2)
    (c : DrawCommand) (rest : List DrawCommand) (s : ℕ)
    (h : c.elem_count = 0) :
    draw_loop tex scale (c :: rest) s = draw_loop tex scale rest s := by
  rw [draw_loop, if_pos (by omega)]

/-- C5: when the draw-span walk succeeds, it issues exactly one indexed draw
call per command with nonzero element count, in emission order, each with its
own command's bind group and element count: no reordering and no batching of
adjacent commands sharing a texture. -/
theorem one_draw_call_per_command (tex : List WgpuTexture) (scale : Vec2)
    (cmds : List DrawCommand) (s : ℕ) (calls : List DrawCall)
    (h : draw_loop tex scale cmds s = some calls) :
    (calls.map fun k => (some k.bind_group, k.ix_end - k.ix_start))
      = ((cmds.filter fun c => decide (0 < c.elem_count)).map
          fun c => (resolved_bind tex c, c.elem_count)) := by
  have h3 := draw_loop_trace tex scale cmds s calls h
  have h4 := congrArg
    (List.map (fun p : Option ℕ × ℕ × (ℕ × ℕ × ℕ × ℕ) => (p.1, p.2.1))) h3
  simpa [List.map_map, Function.comp] using h4

/-- C6: when the draw-span walk succeeds, every drawn command's scissor
rectangle is obtained by multiplying each clip-rect component by the
corresponding device-scale component (x and w by scale.x, y and h by scale.y)
and truncating to an unsigned 32-bit integer. -/
theorem scissor_truncated_scaling (tex : List WgpuTexture) (scale : Vec2)
    (cmds : List DrawCommand) (s : ℕ) (calls : List DrawCall)
    (h : draw_loop tex scale cmds s = some calls) :
    calls.map DrawCall.scissor
      = ((cmds.filter fun c => decide (0 < c.elem_count)).map
          fun c =>
            (f32_as_u32 (c.clip_rect.x * scale.x),
             f32_as_u32 (c.clip_rect.y * scale.y),
             f32_as_u32 (c.clip_rect.w * scale.x),
             f32_as_u32 (c.clip_rect.h * scale.y))) := by
  have h3 := draw_loop_trace tex scale cmds s calls h
  have h4 := congrArg
    (List.map (fun p : Option ℕ × ℕ × (ℕ × ℕ × ℕ × ℕ) => p.2.2)) h3
  simpa [List.map_map, Function.comp] using h4

/-- C7: if any command with nonzero element count carries a texture handle
that does not resolve (no id on the handle, or find_res returns none), the
whole draw-span walk aborts with none (the unwrap panic), rather than
skipping the command or producing a partial call list. -/
theorem unresolved_texture_aborts (tex : List WgpuTexture) (scale : Vec2) :
    ∀ (cmds : List DrawCommand) (s : ℕ) (c : DrawCommand),
      c ∈ cmds → 0 < c.elem_count → resolved_bind tex c = none →
      draw_loop tex scale cmds s = none := by
  intro cmds
  induction cmds with
  | nil =>
    intro s c hmem _ _
    exact absurd hmem (List.not_mem_nil c)
  | cons c0 rest ih =>
    intro s c hmem hpos hnone
    rw [draw_loop]
    rcases List.mem_cons.mp hmem with rfl | hmem2
    · rw [if_neg (by omega)]
      unfold resolved_bind at hnone
      cases htex : c.texture with
      | none => simp [htex]
      | some id =>
        simp only [htex] at hnone
        simp only [htex]
        cases hres : find_res tex id with
        | none => simp [hres]
        | some res =>
          rw [hres] at hnone
          simp at hnone
    · by_cases h0 : c0.elem_count < 1
      · rw [if_pos h0]
        exact ih s c hmem2 hpos hnone
      · rw [if_neg h0]
        cases htex0 : c0.texture with
        | none => simp [htex0]
        | some id =>
          simp only [htex0]
          cases hres0 : find_res tex id with
          | none => simp [hres0]
          | some res =>
            simp only [hres0]
            rw [ih (s + c0.elem_count) c hmem2 hpos hnone]
            rfl

/-- C2: the vertical-flip step rewrites every vertex's Y position to
height - y_original, and applying the flip a second time restores the
original buffer. -/
theorem vertical_flip_correct (height : ℚ) (buf : List Vertex) :
    (∀ i, i < buf.length →
        ((flip_pass height buf).getD i dummy_vertex).pos.2
          = height - (buf.getD i dummy_vertex).pos.2)
    ∧ flip_pass height (flip_pass height buf) = buf := by
  constructor
  · intro i hi
    rw [flip_pass_getD height buf i hi]
    rfl
  · unfold flip_pass
    rw [List.map_map]
    have hid : flip_y height ∘ flip_y height = id := by
      funext v
      obtain ⟨⟨p1, p2⟩, tv, cv⟩ := v
      simp [flip_y, Function.comp, sub_sub_cancel]
    rw [hid, List.map_id]

/-- C10: the vertical-flip loop visits every Vertex-sized slot of the whole
staging allocation, vbo_size / 20 slots in total: a slot at index i at or
beyond the count m of vertices actually emitted this frame is transformed all
the same. -/
theorem flip_whole_allocation (vbo_size : ℕ) (height : ℚ) (buf : List Vertex)
    (hlen : buf.length = flip_slot_count vbo_size)
    (m i : ℕ) (hm : m ≤ buf.length) (hmi : m ≤ i)
    (hi : i < flip_slot_count vbo_size) :
    (flip_pass height buf).length = flip_slot_count vbo_size
    ∧ ((flip_pass height buf).getD i dummy_vertex).pos.2
        = height - (buf.getD i dummy_vertex).pos.2 := by
  have hib : i < buf.length := by rw [hlen]; exact hi
  refine ⟨by rw [flip_pass_length, hlen], ?_⟩
  rw [flip_pass_getD height buf i hib]
  rfl

/-- C4: N add_texture calls on a fresh drawer return the handles 1..N in call
order; on the resulting drawer, find_res maps handle k with 1 <= k <= N to
the k-th created resource, and returns none for handle 0, for every negative
handle, and for every handle above N.  The bound N < 2^31 keeps the i32
handle cast from wrapping. -/
theorem add_texture_handles_find_res (c : Color) (ts : List WgpuTexture)
    (hN : (ts.length : ℤ) < 2 ^ 31) :
    (add_textures (Drawer.new c 0 0 0) ts).2
        = (List.range ts.length).map (fun k : ℕ => (k : ℤ) + 1)
    ∧ (∀ k : ℕ, 1 ≤ k → k ≤ ts.length →
        find_res (add_textures (Drawer.new c 0 0 0) ts).1.tex (k : ℤ)
          = ts.get? (k - 1))
    ∧ find_res (add_textures (Drawer.new c 0 0 0) ts).1.tex 0 = none
    ∧ (∀ h : ℤ, h < 0 →
        find_res (add_textures (Drawer.new c 0 0 0) ts).1.tex h = none)
    ∧ (∀ h : ℤ, (ts.length : ℤ) < h →
        find_res (add_textures (Drawer.new c 0 0 0) ts).1.tex h = none) := by
  have htex : (add_textures (Drawer.new c 0 0 0) ts).1.tex = ts := by
    rw [add_textures_tex]
    rfl
  refine ⟨?_, ?_, ?_, ?_, ?_⟩
  · rw [add_textures_handles]
    have hlen0 : (Drawer.new c 0 0 0).tex.length = 0 := rfl
    rw [hlen0, handle_list_eq ts.length 0 (by push_cast; omega)]
    apply List.map_congr_left
    intro k _
    norm_num
  · intro k h1 h2
    rw [htex, find_res_in_range ts k h1 h2]
  · rw [htex, find_res_nonpos ts 0 le_rfl]
  · intro hh hneg
    rw [htex, find_res_nonpos ts hh (le_of_lt hneg)]
  · intro hh hgt
    rw [htex, find_res_out_of_range ts hh hgt]

/-- C8 counterexample: the claim that every entry of the orthographic matrix
other than M00, M11, M30, M31, M22 is zero fails at width 800, height 600,
because the homogeneous entry M33 is 1. -/
theorem ortho_claim_counterexample :
    ¬ (ortho_entry 800 600 0 0 = 2 / 800 ∧ ortho_entry 800 600 1 1 = -2 / 600
       ∧ ortho_entry 800 600 3 0 = -1 ∧ ortho_entry 800 600 3 1 = 1
       ∧ ortho_entry 800 600 2 2 = -1
       ∧ ∀ i, i < 4 → ∀ j, j < 4 →
           (i, j) ∉ ([(0, 0), (1, 1), (3, 0), (3, 1), (2, 2)] : List (ℕ × ℕ)) →
           ortho_entry 800 600 i j = 0) := by
  intro h
  have h33 := h.2.2.2.2.2 3 (by omega) 3 (by omega) (by decide)
  rw [show ortho_entry 800 600 3 3 = 1 from rfl] at h33
  exact one_ne_zero h33

/-- C8 amended: the orthographic matrix has M00 = 2/width,
M11 = -2/height, M30 = -1, M31 = 1, M22 = -1, M33 = 1, and every other
entry zero. -/
theorem ortho_matrix_entries (width height : ℚ) :
    ortho_entry width height 0 0 = 2 / width
    ∧ ortho_entry width height 1 1 = -2 / height
    ∧ ortho_entry width height 3 0 = -1
    ∧ ortho_entry width height 3 1 = 1
    ∧ ortho_entry width height 2 2 = -1
    ∧ ortho_entry width height 3 3 = 1
    ∧ ∀ i, i < 4 → ∀ j, j < 4 →
        (i, j) ∉ ([(0, 0), (1, 1), (3, 0), (3, 1), (2, 2), (3, 3)]
          : List (ℕ × ℕ)) →
        ortho_entry width height i j = 0 := by
  refine ⟨rfl, rfl, rfl, rfl, rfl, rfl, ?_⟩
  intro i hi j hj hmem
  interval_cases i <;> interval_cases j <;>
    first
    | rfl
    | exact absurd (by decide) hmem

/-- C9 counterexample: the Drawer constructor does not accept an optional
clear color: its input is a plain color, and no constructor call produces a
drawer whose col field is none. -/
theorem new_col_counterexample :
    (none : Option Color)
      ∉ Set.range (fun c : Color => (Drawer.new c 1 1 1).col) := by
  rintro ⟨c, hc⟩
  simp [Drawer.new] at hc

/-- C9 amended: the constructor takes a plain clear color and always stores
it as configured (the public col field can be reset to none afterwards); each
frame's render pass clears exactly when a color is configured, with that
color, and loads the existing contents when col is none. -/
theorem clear_color_policy (c : Color) (tcount vsz esz : ℕ)
    (col : Option Color) :
    (Drawer.new c tcount vsz esz).col = some c
    ∧ (render_pass_load_op col = LoadOp.Clear ↔ col.isSome = true)
    ∧ (∀ cc : Color, col = some cc → render_pass_clear_color col = cc)
    ∧ (col = none → render_pass_load_op col = LoadOp.Load) := by
  refine ⟨rfl, ?_, ?_, ?_⟩
  · cases col <;> simp [render_pass_load_op]
  · rintro cc rfl
    rfl
  · rintro rfl
    rfl

/-! ### Witnesses -/

/-- Witness for C1 on a three-command buffer with a zero-count command in the
middle: spans 0..3 and 3..7 partition the seven consumed indices. -/
theorem draw_spans_partition_witness :
    chain_from 0 [⟨5, (0, 0, 2, 2), 0, 3⟩, ⟨5, (1, 2, 3, 4), 3, 7⟩] = true
    ∧ last_end 0 [⟨5, (0, 0, 2, 2), 0, 3⟩, ⟨5, (1, 2, 3, 4), 3, 7⟩]
        = total_elems [⟨3, some 1, ⟨0, 0, 2, 2⟩⟩, ⟨0, some 1, ⟨0, 0, 1, 1⟩⟩,
            ⟨4, some 1, ⟨1, 2, 3, 4⟩⟩]
    ∧ (([⟨5, (0, 0, 2, 2), 0, 3⟩, ⟨5, (1, 2, 3, 4), 3, 7⟩] : List DrawCall).map
          fun k => k.ix_end - k.ix_start)
        = ((([⟨3, some 1, ⟨0, 0, 2, 2⟩⟩, ⟨0, some 1, ⟨0, 0, 1, 1⟩⟩,
            ⟨4, some 1, ⟨1, 2, 3, 4⟩⟩] : List DrawCommand).filter
              fun c => decide (0 < c.elem_count)).map DrawCommand.elem_count)
    ∧ (([⟨5, (0, 0, 2, 2), 0, 3⟩, ⟨5, (1, 2, 3, 4), 3, 7⟩] : List DrawCall).map
          fun k => k.ix_end - k.ix_start).sum
        = total_elems [⟨3, some 1, ⟨0, 0, 2, 2⟩⟩, ⟨0, some 1, ⟨0, 0, 1, 1⟩⟩,
            ⟨4, some 1, ⟨1, 2, 3, 4⟩⟩] :=
  draw_spans_partition [⟨5⟩] ⟨1, 1⟩
    [⟨3, some 1, ⟨0, 0, 2, 2⟩⟩, ⟨0, some 1, ⟨0, 0, 1, 1⟩⟩,
     ⟨4, some 1, ⟨1, 2, 3, 4⟩⟩]
    [⟨5, (0, 0, 2, 2), 0, 3⟩, ⟨5, (1, 2, 3, 4), 3, 7⟩]
    (by norm_num [draw_loop, find_res, f32_as_u32]; omega)

/-- Witness for C2 on a one-vertex buffer at height 600. -/
theorem vertical_flip_correct_witness :
    ((flip_pass 600 [⟨(10, 20), (0, 0), (1, 2, 3, 4)⟩]).getD 0
        dummy_vertex).pos.2
      = 600 - (([⟨(10, 20), (0, 0), (1, 2, 3, 4)⟩] : List Vertex).getD 0
        dummy_vertex).pos.2
    ∧ flip_pass 600 (flip_pass 600 [⟨(10, 20), (0, 0), (1, 2, 3, 4)⟩])
      = [⟨(10, 20), (0, 0), (1, 2, 3, 4)⟩] :=
  ⟨(vertical_flip_correct 600 [⟨(10, 20), (0, 0), (1, 2, 3, 4)⟩]).1 0
      (by decide),
   (vertical_flip_correct 600 [⟨(10, 20), (0, 0), (1, 2, 3, 4)⟩]).2⟩

/-- Witness for C3: a zero-count command at offset 5 leaves the walk
unchanged. -/
theorem zero_count_no_advance_witness :
    draw_loop [⟨7⟩] ⟨2, 2⟩
        [⟨0, some 1, ⟨0, 0, 0, 0⟩⟩, ⟨2, some 1, ⟨0, 0, 1, 1⟩⟩] 5
      = draw_loop [⟨7⟩] ⟨2, 2⟩ [⟨2, some 1, ⟨0, 0, 1, 1⟩⟩] 5 :=
  zero_count_no_advance [⟨7⟩] ⟨2, 2⟩ ⟨0, some 1, ⟨0, 0, 0, 0⟩⟩
    [⟨2, some 1, ⟨0, 0, 1, 1⟩⟩] 5 rfl

/-- Witness for C4 with two textures: handles are 1 and 2, find_res resolves
2 to the second resource and rejects 0, -3 and 3. -/
theorem add_texture_handles_find_res_witness :
    ((([⟨10⟩, ⟨11⟩] : List WgpuTexture).length : ℤ) < 2 ^ 31)
    ∧ (add_textures (Drawer.new ⟨0, 0, 0, 1⟩ 0 0 0) [⟨10⟩, ⟨11⟩]).2
        = (List.range ([⟨10⟩, ⟨11⟩] : List WgpuTexture).length).map
            (fun k : ℕ => (k : ℤ) + 1)
    ∧ find_res
        (add_textures (Drawer.new ⟨0, 0, 0, 1⟩ 0 0 0) [⟨10⟩, ⟨11⟩]).1.tex
        ((2 : ℕ) : ℤ) = ([⟨10⟩, ⟨11⟩] : List WgpuTexture).get? (2 - 1)
    ∧ find_res
        (add_textures (Drawer.new ⟨0, 0, 0, 1⟩ 0 0 0) [⟨10⟩, ⟨11⟩]).1.tex 0
        = none
    ∧ find_res
        (add_textures (Drawer.new ⟨0, 0, 0, 1⟩ 0 0 0) [⟨10⟩, ⟨11⟩]).1.tex (-3)
        = none
    ∧ find_res
        (add_textures (Drawer.new ⟨0, 0, 0, 1⟩ 0 0 0) [⟨10⟩, ⟨11⟩]).1.tex 3
        = none := by
  have H := add_texture_handles_find_res ⟨0, 0, 0, 1⟩ [⟨10⟩, ⟨11⟩] (by decide)
  exact ⟨by decide, H.1, H.2.1 2 (by decide) (by decide), H.2.2.1,
    H.2.2.2.1 (-3) (by decide), H.2.2.2.2 3 (by decide)⟩

/-- Witness for C5 on two adjacent commands that share texture 1: two
separate draw calls of 2 and 3 indices. -/
theorem one_draw_call_per_command_witness :
    (([⟨9, (0, 0, 4, 4), 0, 2⟩, ⟨9, (0, 0, 4, 4), 2, 5⟩] : List DrawCall).map
        fun k => (some k.bind_group, k.ix_end - k.ix_start))
      = ((([⟨2, some 1, ⟨0, 0, 4, 4⟩⟩, ⟨3, some 1, ⟨0, 0, 4, 4⟩⟩]
            : List DrawCommand).filter fun c => decide (0 < c.elem_count)).map
          fun c => (resolved_bind [⟨9⟩] c, c.elem_count)) :=
  one_draw_call_per_command [⟨9⟩] ⟨1, 1⟩
    [⟨2, some 1, ⟨0, 0, 4, 4⟩⟩, ⟨3, some 1, ⟨0, 0, 4, 4⟩⟩] 0
    [⟨9, (0, 0, 4, 4), 0, 2⟩, ⟨9, (0, 0, 4, 4), 2, 5⟩]
    (by norm_num [draw_loop, find_res, f32_as_u32]; omega)

/-- Witness for C6: clip (10, 20, 100, 50) at scale (2, 2) gives scissor
(20, 40, 200, 100). -/
theorem scissor_truncated_scaling_witness :
    (([⟨3, (20, 40, 200, 100), 0, 6⟩] : List DrawCall).map DrawCall.scissor)
      = ((([⟨6, some 1, ⟨10, 20, 100, 50⟩⟩] : List DrawCommand).filter
            fun c => decide (0 < c.elem_count)).map
          fun c =>
            (f32_as_u32 (c.clip_rect.x * 2), f32_as_u32 (c.clip_rect.y * 2),
             f32_as_u32 (c.clip_rect.w * 2), f32_as_u32 (c.clip_rect.h * 2))) :=
  scissor_truncated_scaling [⟨3⟩] ⟨2, 2⟩ [⟨6, some 1, ⟨10, 20, 100, 50⟩⟩] 0
    [⟨3, (20, 40, 200, 100), 0, 6⟩]
    (by norm_num [draw_loop, find_res, f32_as_u32]; omega)

/-- Witness for C7: a nonzero-count command whose id 1 resolves to nothing
(no textures registered) makes the whole walk abort. -/
theorem unresolved_texture_aborts_witness :
    draw_loop [] ⟨1, 1⟩ [⟨2, some 1, ⟨0, 0, 1, 1⟩⟩] 0 = none :=
  unresolved_texture_aborts [] ⟨1, 1⟩ [⟨2, some 1, ⟨0, 0, 1, 1⟩⟩] 0
    ⟨2, some 1, ⟨0, 0, 1, 1⟩⟩ (by decide) (by decide) (by decide)

/-- Witness for C8 at width 800, height 600: M00 is 2/800 and the
off-pattern entry M23 is zero. -/
theorem ortho_matrix_entries_witness :
    ortho_entry 800 600 0 0 = 2 / 800 ∧ ortho_entry 800 600 2 3 = 0 :=
  ⟨(ortho_matrix_entries 800 600).1,
   (ortho_matrix_entries 800 600).2.2.2.2.2.2 2 (by omega) 3 (by omega)
     (by decide)⟩

/-- Witness for C9: a drawer built with an opaque black clear color stores
it, the pass clears with it, and a none color loads instead. -/
theorem clear_color_policy_witness :
    (Drawer.new ⟨0, 0, 0, 1⟩ 2 64 64).col = some ⟨0, 0, 0, 1⟩
    ∧ render_pass_load_op (some (⟨0, 0, 0, 1⟩ : Color)) = LoadOp.Clear
    ∧ render_pass_clear_color (some (⟨0, 0, 0, 1⟩ : Color)) = ⟨0, 0, 0, 1⟩
    ∧ render_pass_load_op (none : Option Color) = LoadOp.Load := by
  have H1 := clear_color_policy ⟨0, 0, 0, 1⟩ 2 64 64 (some ⟨0, 0, 0, 1⟩)
  have H2 := clear_color_policy ⟨0, 0, 0, 1⟩ 2 64 64 (none : Option Color)
  exact ⟨H1.1, H1.2.1.mpr rfl, H1.2.2.1 ⟨0, 0, 0, 1⟩ rfl, H2.2.2.2 rfl⟩

/-- Witness for C10: with a 60-byte vertex staging buffer (3 slots) and one
emitted vertex, the trailing slot at index 2 is still flipped. -/
theorem flip_whole_allocation_witness :
    (flip_pass 100 [⟨(0, 0), (0, 0), (0, 0, 0, 0)⟩,
        ⟨(1, 1), (0, 0), (0, 0, 0, 0)⟩, ⟨(2, 7), (0, 0), (0, 0, 0, 0)⟩]).length
      = flip_slot_count 60
    ∧ ((flip_pass 100 [⟨(0, 0), (0, 0), (0, 0, 0, 0)⟩,
        ⟨(1, 1), (0, 0), (0, 0, 0, 0)⟩,
        ⟨(2, 7), (0, 0), (0, 0, 0, 0)⟩]).getD 2 dummy_vertex).pos.2
      = 100 - (([⟨(0, 0), (0, 0), (0, 0, 0, 0)⟩, ⟨(1, 1), (0, 0), (0, 0, 0, 0)⟩,
        ⟨(2, 7), (0, 0), (0, 0, 0, 0)⟩] : List Vertex).getD 2
          dummy_vertex).pos.2 :=
  flip_whole_allocation 60 100
    [⟨(0, 0), (0, 0), (0, 0, 0, 0)⟩, ⟨(1, 1), (0, 0), (0, 0, 0, 0)⟩,
     ⟨(2, 7), (0, 0), (0, 0, 0, 0)⟩] (by decide) 1 2 (by decide) (by decide)
    (by decide)
